import Mathlib

/-!
Verification of the transaction submission and connection-resilience engine of
the `levana-cosmos-rs` client library (`packages/cosmos/src/client.rs` and
`packages/cosmos/src/authz.rs`).

The Rust code is shallowly embedded: network interactions are resolved by
oracle functions (one response per call index), floating-point gas arithmetic
is modelled by exact rationals, and `u64` string parsing keeps the 2^64
overflow bound.  Definitions keep the source names in camelCase.
-/

namespace Cosmos

/-! ## Sequence-mismatch detector (`get_expected_sequence`, client.rs 1534-1547)

Strings are handled as `List Char`.  `rustLines` replicates Rust's
`str::lines` (split on newline, strip a carriage return only when a newline
followed, no trailing empty line); `parseU64Chars` replicates
`str::parse::<u64>` (optional leading plus sign, ASCII digits, overflow
check).
-/

/-- Match a pattern at the start of a list, returning the remainder
(models Rust `str::strip_prefix`). -/
def dropPre : List Char → List Char → Option (List Char)
  | [], s => some s
  | _ :: _, [] => none
  | p :: ps, c :: cs => if p = c then dropPre ps cs else none

/-- Boolean test that `needle` occurs at the start of `hay`. -/
def isPreB : List Char → List Char → Bool
  | [], _ => true
  | _ :: _, [] => false
  | p :: ps, c :: cs => p == c && isPreB ps cs

/-- Boolean substring test (models Rust `str::contains`). -/
def containsSubB (needle : List Char) : List Char → Bool
  | [] => isPreB needle []
  | c :: t => isPreB needle (c :: t) || containsSubB needle t

/-- Split a character list on newline characters, keeping every segment. -/
def splitNL : List Char → List (List Char)
  | [] => [[]]
  | c :: t =>
    if c = '\n' then [] :: splitNL t
    else
      match splitNL t with
      | [] => [[c]]
      | h :: r => (c :: h) :: r

/-- Remove one trailing carriage return, if present. -/
def stripCR (s : List Char) : List Char :=
  if s.getLast? = some '\r' then s.dropLast else s

/-- Post-process the newline segments the way Rust `str::lines` does: every
segment except the last had a newline after it, so it loses a trailing
carriage return; a final empty segment is dropped. -/
def rustLinesAux : List (List Char) → List (List Char)
  | [] => []
  | [last] => if last = [] then [] else [last]
  | s :: rest => stripCR s :: rustLinesAux rest

/-- Rust `str::lines` on a string. -/
def rustLines (s : String) : List (List Char) :=
  rustLinesAux (splitNL s.data)

/-- Rust `str::parse::<u64>`: optional leading plus sign, then at least one
ASCII digit, rejecting values of 2^64 or more. -/
def parseU64Chars (cs : List Char) : Option Nat :=
  let cs' := match cs with
    | '+' :: rest => rest
    | _ => cs
  if cs' ≠ [] ∧ cs'.all Char.isDigit then
    let v := cs'.foldl (fun a c => a * 10 + (c.toNat - 48)) 0
    if v < 2 ^ 64 then some v else none
  else none

/-- The fixed pattern scanned for by the detector. -/
def seqPat : List Char := "account sequence mismatch, expected ".data

/-- Split at the first comma, returning the text before and after it (models
`s.find(',')` followed by slicing). -/
def splitComma : List Char → Option (List Char × List Char)
  | [] => none
  | c :: t =>
    if c = ',' then some ([], t)
    else (splitComma t).map (fun p => (c :: p.1, p.2))

/-- Take the text up to the first comma and parse it as a `u64`; fail when no
comma follows (models `let comma = s.find(',')?; s[..comma].parse().ok()`). -/
def parseUpToComma (rest : List Char) : Option Nat :=
  match splitComma rest with
  | none => none
  | some (pre, _) => parseU64Chars pre

/-- One line of the detector, `get_expected_sequence_single`
(client.rs 1543-1547): the line must start with the pattern, and the text from
there to the first comma must parse as a `u64`. -/
def getExpectedSequenceSingle (line : List Char) : Option Nat :=
  match dropPre seqPat line with
  | none => none
  | some rest => parseUpToComma rest

/-- The sequence-mismatch detector `get_expected_sequence`
(client.rs 1534-1541): first line (in order) on which the single-line
detector succeeds. -/
def getExpectedSequence (message : String) : Option Nat :=
  (rustLines message).findSome? getExpectedSequenceSingle

/-- Modelled from the spec: locate the pattern anywhere in the line (first
occurrence) and return the remainder after it.  This is the "contains the
substring pattern" reading of section 4.3, used to compare against the
source's start-of-line behaviour. -/
def afterFirstPat : List Char → Option (List Char)
  | [] => dropPre seqPat []
  | c :: t =>
    match dropPre seqPat (c :: t) with
    | some r => some r
    | none => afterFirstPat t

/-- Modelled from the spec: single-line detector of section 4.3 under the
"contains the substring pattern" reading. -/
def specContainsSingle (line : List Char) : Option Nat :=
  (afterFirstPat line).bind parseUpToComma

/-- Modelled from the spec: full detector of section 4.3 under the "contains
the substring pattern" reading (first matching line wins). -/
def specContainsDetector (message : String) : Option Nat :=
  (rustLines message).findSome? specContainsSingle

/-- A line matches with value `n` when it starts with the pattern, followed by
a comma-free chunk that parses as `u64` `n`, a comma, and arbitrary trailing
text. -/
def LineMatch (line : List Char) (n : Nat) : Prop :=
  ∃ mid trail, line = seqPat ++ mid ++ ',' :: trail ∧ ',' ∉ mid ∧
    parseU64Chars mid = some n

/-! ## Configuration and gas pricing (`CosmosConfig`, `gas_to_coins`)

The `f64` fields of `CosmosConfig` are modelled by exact rationals.  `u64`
saturation of the final `as u64` cast at `u64::MAX` is not modelled (the cast
truncates toward zero and clamps negatives to zero, which `Int.toNat ∘ floor`
reproduces for every value below `2^64`).
-/

/-- The retry-relevant fields of `CosmosConfig` (client.rs 203-234). -/
structure CosmosConfig where
  gas_estimate_multiplier : ℚ
  gas_price_low : ℚ
  gas_price_high : ℚ
  gas_price_retry_attempts : Nat
  transaction_attempts : Nat

/-- The `Default` instance of `CosmosConfig` (client.rs 236-252). -/
def defaultConfig : CosmosConfig where
  gas_estimate_multiplier := 13 / 10
  gas_price_low := 2 / 100
  gas_price_high := 3 / 100
  gas_price_retry_attempts := 3
  transaction_attempts := 30

/-- Gas price per unit for a given 0-based attempt number: the price branch of
`Cosmos::gas_to_coins` (client.rs 710-716). -/
def gasPriceFor (cfg : CosmosConfig) (attempt_number : Nat) : ℚ :=
  if attempt_number ≥ cfg.gas_price_retry_attempts then cfg.gas_price_high
  else
    cfg.gas_price_low +
      (cfg.gas_price_high - cfg.gas_price_low) / cfg.gas_price_retry_attempts
        * attempt_number

/-- `Cosmos::gas_to_coins` (client.rs 704-719): coin amount offered for `gas`
units at the given attempt, `(gas as f64 * gas_price) as u64`. -/
def gasToCoins (cfg : CosmosConfig) (gas : Nat) (attempt_number : Nat) : Nat :=
  (((gas : ℚ) * gasPriceFor cfg attempt_number).floor).toNat

/-! ## Endpoint pool round-robin (`CosmosBuilders::get_next_builder`)

Builders are opaque values of an arbitrary type; the selection state is the
builder list plus the lock-guarded `next_index` cursor.
-/

/-- The builder-selection state of `CosmosBuilders` (client.rs 51-54). -/
structure CosmosBuilders (α : Type) where
  builders : List α
  next_index : Nat

/-- `CosmosBuilders::get_next_builder` (client.rs 84-98): read the builder at
the cursor, then advance the cursor, wrapping to zero once it reaches the list
length.  A `none` result models the `expect` panic on an out-of-range
cursor. -/
def getNextBuilder {α : Type} (s : CosmosBuilders α) : Option α × CosmosBuilders α :=
  match s.builders.get? s.next_index with
  | none => (none, s)
  | some b =>
    (some b,
      ⟨s.builders,
        if s.next_index + 1 ≥ s.builders.length then 0 else s.next_index + 1⟩)

/-- Iterated builder selection: the results of `n` consecutive
`get_next_builder` calls together with the final state. -/
def selectN {α : Type} (s : CosmosBuilders α) : Nat → List (Option α) × CosmosBuilders α
  | 0 => ([], s)
  | n + 1 =>
    ((getNextBuilder s).1 :: (selectN (getNextBuilder s).2 n).1,
      (selectN (getNextBuilder s).2 n).2)

/-! ## Paginated query loops (`all_balances`, `query_granter_grants`)

Items (coins, grants) are opaque, represented by naturals, as are the bytes
of a pagination key.  Responses come from an oracle indexed by the iteration
number; the construction of the next request (key/offset/limit fields) is
elided since it does not feed back into the oracle.  The loops are run with
explicit fuel: a `none` result means the fuel was exhausted with the loop
still running.
-/

/-- A `PageResponse`: the next-page key returned by a paginated query. -/
structure PageResponse where
  next_key : List Nat

/-- One `QueryAllBalancesResponse`: newly returned balances plus optional
pagination. -/
structure BalancesPage where
  balances : List Nat
  pagination : Option PageResponse

/-- One `QueryGranterGrantsResponse`: newly returned grants plus optional
pagination. -/
structure GrantsPage where
  grants : List Nat
  pagination : Option PageResponse

/-- The continue condition of the `all_balances` loop (client.rs 499-510):
iterate again exactly when the response carries pagination with a non-empty
next key, regardless of how many balances the page returned. -/
def balancesContinue (p : BalancesPage) : Bool :=
  match p.pagination with
  | some x => !x.next_key.isEmpty
  | none => false

/-- The `Cosmos::all_balances` loop (client.rs 481-512): append the page's
balances, then continue while `balancesContinue` holds. -/
def allBalances (env : Nat → BalancesPage) (i : Nat) (acc : List Nat) :
    Nat → Option (List Nat)
  | 0 => none
  | fuel + 1 =>
    if balancesContinue (env i) then
      allBalances env (i + 1) (acc ++ (env i).balances) fuel
    else some (acc ++ (env i).balances)

/-- The `Cosmos::query_granter_grants` loop (authz.rs 94-126): exit exactly
when a page's `grants` is empty (checked before appending); the pagination
field never ends the loop (an absent `pagination` merely restarts from an
unkeyed request). -/
def queryGranterGrants (env : Nat → GrantsPage) (i : Nat) (acc : List Nat) :
    Nat → Option (List Nat)
  | 0 => none
  | fuel + 1 =>
    if (env i).grants.isEmpty then some acc
    else queryGranterGrants env (i + 1) (acc ++ (env i).grants) fuel

/-! ## Transaction finality poll (`Cosmos::wait_for_transaction_body`)

The node's answers are an oracle indexed by the 1-based attempt number: either
a gRPC status (not-found flag plus message) or a `GetTxResponse`.  The run
returns the result together with the number of queries issued and the number
of 2-second sleeps taken.  Error values are the strings the code builds.
-/

/-- A final `TxResponse` as used by the broadcast path: result code, raw log,
and transaction hash. -/
structure TxResponse where
  code : Nat
  raw_log : String
  txhash : String
deriving DecidableEq

/-- A gRPC error status: whether its code is `NotFound`, plus its message. -/
structure GrpcStatus where
  isNotFound : Bool
  message : String

/-- A `GetTxResponse`: optional `tx` (whose optional `body` is opaque, a
natural) and optional `tx_response`. -/
structure GetTxResponse where
  tx : Option (Option Nat)
  tx_response : Option TxResponse

/-- The not-found detector of the poll loop (client.rs 651): a `NotFound`
status code, or the substring "not found" in the message (the workaround for
nodes that misreport the condition). -/
def notFoundish (st : GrpcStatus) : Bool :=
  st.isNotFound || containsSubB "not found".data st.message.data

/-- The timeout failure built after exhausting all attempts
(client.rs 663-665). -/
def timeoutMessage (txhash : String) : String :=
  "Timed out waiting for " ++ txhash ++ " to be ready"

/-- The attempt loop of `Cosmos::wait_for_transaction_body`
(client.rs 628-666), run with the remaining attempt count as fuel: a
successful query returns the body and response (missing fields are fatal
decode errors), a not-found-ish error sleeps 2 seconds and moves to the next
attempt, any other error aborts with the status message, and running out of
attempts produces the timeout failure.  Returns (result, queries issued,
sleeps taken). -/
def waitForTransactionGo (txhash : String)
    (env : Nat → Except GrpcStatus GetTxResponse) (attempt : Nat) :
    Nat → (Except String (Nat × TxResponse)) × Nat × Nat
  | 0 => (.error (timeoutMessage txhash), 0, 0)
  | n + 1 =>
    match env attempt with
    | .ok r =>
      match r.tx with
      | none => (.error ("Missing tx for transaction " ++ txhash), 1, 0)
      | some body? =>
        match body? with
        | none => (.error ("Missing body for transaction " ++ txhash), 1, 0)
        | some b =>
          match r.tx_response with
          | none => (.error ("Missing tx_response for transaction " ++ txhash), 1, 0)
          | some tr => (.ok (b, tr), 1, 0)
    | .error st =>
      if notFoundish st then
        ((waitForTransactionGo txhash env (attempt + 1) n).1,
          (waitForTransactionGo txhash env (attempt + 1) n).2.1 + 1,
          (waitForTransactionGo txhash env (attempt + 1) n).2.2 + 1)
      else (.error st.message, 1, 0)

/-- `Cosmos::wait_for_transaction_body` (client.rs 621-666): attempts run
from 1 up to the configured `transaction_attempts`. -/
def waitForTransactionBody (cfg : CosmosConfig) (txhash : String)
    (env : Nat → Except GrpcStatus GetTxResponse) :
    (Except String (Nat × TxResponse)) × Nat × Nat :=
  waitForTransactionGo txhash env 1 cfg.transaction_attempts

/-! ## Sign-and-broadcast machinery (`TxBuilder`, client.rs 1106-1448)

Network responses are oracles: per-attempt environments for the gas-price
loop, and per-sequence oracles for the simulate and broadcast stages.  The
`anyhow` errors the code builds are modelled by an error type whose
constructors carry the data interpolated into the corresponding message.
Traces (sequences tried, coin amounts offered) are returned alongside results
so that retry counts are observable.  The jsonrpc transport branch (which
performs no sequence detection) is not modelled; the gRPC branch is.
-/

/-- The errors produced along the sign-and-broadcast path; each constructor
corresponds to one `anyhow` construction site in client.rs. -/
inductive CosmosError where
  | unableToSimulate (msg : String)
  | missingGasInfo
  | broadcastTransport (msg : String)
  | broadcastFailed (code : Nat) (raw_log : String)
  | txFailed (code : Nat) (raw_log : String)
  | waitError (msg : String)
deriving DecidableEq

/-- `ExpectedSequenceError` (client.rs 1550-1553): a real error, or a new
account sequence number to try, paired with the underlying error. -/
inductive ExpectedSequenceError where
  | realError (e : CosmosError)
  | newNumber (n : Nat) (e : CosmosError)
deriving DecidableEq

/-- The `From<ExpectedSequenceError> for anyhow::Error` impl
(client.rs 1561-1568): both variants surface the underlying error. -/
def ExpectedSequenceError.toError : ExpectedSequenceError → CosmosError
  | .realError e => e
  | .newNumber _ e => e

/-- `AttemptError` (client.rs 1323-1331): the per-price-tier outcome
classification inside `sign_and_broadcast_with`. -/
inductive AttemptError where
  | inner (e : ExpectedSequenceError)
  | insufficientGas (e : CosmosError)
deriving DecidableEq

/-- The node's behaviour for one broadcast attempt: the synchronous
`BroadcastTx` outcome (a transport/decode error message, or the sync
response) and the outcome `wait_for_transaction` would produce for the
accepted transaction. -/
structure AttemptEnv where
  syncRes : Except String TxResponse
  finalRes : Except String TxResponse

/-- The body of the `retry_with_price` closure (client.rs 1333-1424):
broadcast synchronously; with code checking on, a non-zero sync code is
classified (13 = insufficient gas, else by the sequence detector on the raw
log); an accepted transaction is polled for finality and its final code is
re-checked, with any non-zero final code a real error (no sequence
detection after landing on-chain). -/
def retryWithPrice (skip_code_check : Bool) (e : AttemptEnv) :
    Except AttemptError TxResponse :=
  match e.syncRes with
  | .error msg => .error (.inner (.realError (.broadcastTransport msg)))
  | .ok res =>
    if ¬skip_code_check ∧ res.code ≠ 0 then
      if res.code = 13 then
        .error (.insufficientGas (.broadcastFailed res.code res.raw_log))
      else
        match getExpectedSequence res.raw_log with
        | none => .error (.inner (.realError (.broadcastFailed res.code res.raw_log)))
        | some n => .error (.inner (.newNumber n (.broadcastFailed res.code res.raw_log)))
    else
      match e.finalRes with
      | .error msg => .error (.inner (.realError (.waitError msg)))
      | .ok fres =>
        if ¬skip_code_check ∧ fres.code ≠ 0 then
          .error (.inner (.realError (.txFailed fres.code fres.raw_log)))
        else .ok fres

/-- The gas-price retry loop of `sign_and_broadcast_with`
(client.rs 1426-1447), with the remaining in-loop iterations as fuel: at fuel
0 only the final, high-priced attempt remains (insufficient gas there
surfaces the underlying error); otherwise insufficient gas advances to the
next tier, every other outcome ends the loop.  The list records the coin
amount offered at each attempt, in order. -/
def sbGo (retry : Nat → Except AttemptError TxResponse) (amount : Nat → Nat)
    (i : Nat) : Nat → List Nat × Except ExpectedSequenceError TxResponse
  | 0 =>
    ([amount i],
      match retry i with
      | .ok x => .ok x
      | .error (.insufficientGas e) => .error (.realError e)
      | .error (.inner e) => .error e)
  | n + 1 =>
    match retry i with
    | .ok x => ([amount i], .ok x)
    | .error (.insufficientGas _) =>
      (amount i :: (sbGo retry amount (i + 1) n).1,
        (sbGo retry amount (i + 1) n).2)
    | .error (.inner e) => ([amount i], .error e)

/-- `TxBuilder::sign_and_broadcast_with` (client.rs 1314-1448): the price
tiers run from 0 through `gas_price_retry_attempts` inclusive, attempt `i`
offering `gas_to_coins(gas, i)` coins. -/
def signAndBroadcastWith (cfg : CosmosConfig) (skip_code_check : Bool)
    (gas : Nat) (env : Nat → AttemptEnv) :
    List Nat × Except ExpectedSequenceError TxResponse :=
  sbGo (fun i => retryWithPrice skip_code_check (env i))
    (fun i => gasToCoins cfg gas i) 0 cfg.gas_price_retry_attempts

/-- Whether an attempt's synchronous broadcast response exists and has
result code 13. -/
def is13 (env : Nat → AttemptEnv) (k : Nat) : Bool :=
  match (env k).syncRes with
  | .ok r => r.code == 13
  | .error _ => false

/-- The raw log of an attempt's synchronous response (empty for a transport
error). -/
def syncRawLog (e : AttemptEnv) : String :=
  match e.syncRes with
  | .ok r => r.raw_log
  | .error _ => ""

/-- Whether a per-tier outcome is the insufficient-gas classification. -/
def isIG (r : Except AttemptError TxResponse) : Bool :=
  match r with
  | .error (.insufficientGas _) => true
  | _ => false

/-- Count of consecutive `true` values of `p` starting at `i`, capped at the
fuel bound. -/
def run13 (p : Nat → Bool) (i : Nat) : Nat → Nat
  | 0 => 0
  | n + 1 => if p i then run13 p (i + 1) n + 1 else 0

/-- `TxBuilder::simulate_inner` (client.rs 1236-1312) on the gRPC branch: the
simulate RPC either errors (its message is fed to the sequence detector to
pick the `ExpectedSequenceError` variant) or returns an optional `gas_info`
whose absence is a fatal decode error. -/
def simulateInner (rpc : Nat → Except String (Option Nat)) (sequence : Nat) :
    Except ExpectedSequenceError Nat :=
  match rpc sequence with
  | .error msg =>
    match getExpectedSequence msg with
    | none => .error (.realError (.unableToSimulate msg))
    | some n => .error (.newNumber n (.unableToSimulate msg))
  | .ok gas_info =>
    match gas_info with
    | none => .error (.realError .missingGasInfo)
    | some gas_used => .ok gas_used

/-- `TxBuilder::simulate` (client.rs 1107-1132): simulate at the fetched
account sequence; on a `NewNumber` outcome redo the simulation once at the
corrected sequence, any further error surfacing its underlying error; a
`RealError` is fatal immediately.  Also returns the list of sequences
simulation was attempted with. -/
def simulate (rpc : Nat → Except String (Option Nat)) (fetchedSequence : Nat) :
    List Nat × Except CosmosError Nat :=
  match simulateInner rpc fetchedSequence with
  | .ok g => ([fetchedSequence], .ok g)
  | .error (.realError e) => ([fetchedSequence], .error e)
  | .error (.newNumber x _) =>
    match simulateInner rpc x with
    | .ok g => ([fetchedSequence, x], .ok g)
    | .error e2 => ([fetchedSequence, x], .error e2.toError)

/-- `TxBuilder::inner_sign_and_broadcast` (client.rs 1162-1198): fetch the
account, run `sign_and_broadcast_with` at the fetched sequence; on a
`NewNumber` outcome redo the whole sign/broadcast once at the corrected
sequence, any further error surfacing its underlying error.  The broadcast
oracle is indexed by the sequence signed with, then by the attempt number.
Also returns the list of sequences broadcast was attempted with. -/
def innerSignAndBroadcast (cfg : CosmosConfig) (skip_code_check : Bool)
    (gas : Nat) (benv : Nat → Nat → AttemptEnv) (fetchedSequence : Nat) :
    List Nat × Except CosmosError TxResponse :=
  match (signAndBroadcastWith cfg skip_code_check gas (benv fetchedSequence)).2 with
  | .ok r => ([fetchedSequence], .ok r)
  | .error (.realError e) => ([fetchedSequence], .error e)
  | .error (.newNumber x _) =>
    match (signAndBroadcastWith cfg skip_code_check gas (benv x)).2 with
    | .ok r => ([fetchedSequence, x], .ok r)
    | .error e2 => ([fetchedSequence, x], .error e2.toError)

/-- The world `TxBuilder::sign_and_broadcast` interacts with: the sequence
`get_base_account` returns before simulation, the simulate oracle, the
sequence the second `get_base_account` call (inside
`inner_sign_and_broadcast`) returns, and the broadcast oracle. -/
structure SignAndBroadcastEnv where
  simFetchedSequence : Nat
  simRpc : Nat → Except String (Option Nat)
  broadcastFetchedSequence : Nat
  broadcastEnv : Nat → Nat → AttemptEnv

/-- `TxBuilder::sign_and_broadcast` (client.rs 1137-1148): simulate, pad the
gas estimate by the multiplier (`(gas_used as f64 * multiplier) as u64`), and
delegate to `inner_sign_and_broadcast`, which re-fetches the account.
Returns (sequences simulated with, sequences broadcast with, result). -/
def signAndBroadcast (cfg : CosmosConfig) (skip_code_check : Bool)
    (E : SignAndBroadcastEnv) :
    List Nat × List Nat × Except CosmosError TxResponse :=
  match simulate E.simRpc E.simFetchedSequence with
  | (simTrace, .error e) => (simTrace, [], .error e)
  | (simTrace, .ok gas_used) =>
    let p := innerSignAndBroadcast cfg skip_code_check
      (((gas_used : ℚ) * cfg.gas_estimate_multiplier).floor.toNat)
      E.broadcastEnv E.broadcastFetchedSequence
    (simTrace, p.1, p.2)


/-! ## Helper lemmas -/


theorem dropPre_eq_some_iff (p s r : List Char) : dropPre p s = some r ↔ s = p ++ r := by
  induction p generalizing s with
  | nil => simp [dropPre]
  | cons a ps ih =>
    cases s with
    | nil => simp [dropPre]
    | cons c cs =>
      rcases eq_or_ne a c with rfl | h
      · simp [dropPre, ih]
      · simp only [dropPre, if_neg (fun hh => h hh), List.cons_append]
        constructor
        · intro hh; cases hh
        · intro hh
          cases hh
          exact absurd rfl h

theorem splitComma_eq_some_iff (l mid trail : List Char) :
    splitComma l = some (mid, trail) ↔ l = mid ++ ',' :: trail ∧ ',' ∉ mid := by
  induction l generalizing mid with
  | nil =>
    simp only [splitComma]
    constructor
    · intro hh; cases hh
    · rintro ⟨hh, -⟩; cases mid <;> cases hh
  | cons c t ih =>
    rcases eq_or_ne c ',' with rfl | hc
    · simp only [splitComma, if_pos rfl]
      constructor
      · intro hh
        cases hh
        simp
      · rintro ⟨hh, hmem⟩
        cases mid with
        | nil => cases hh; rfl
        | cons m ms =>
          cases hh
          exact absurd (List.mem_cons_self _ _) hmem
    · simp only [splitComma, if_neg hc]
      cases mid with
      | nil =>
        simp only [List.nil_append]
        constructor
        · intro hh
          rcases Option.map_eq_some'.mp hh with ⟨p, -, hp2⟩
          cases hp2
        · rintro ⟨hh, -⟩
          cases hh
          exact absurd rfl hc
      | cons m ms =>
        constructor
        · intro hh
          rcases Option.map_eq_some'.mp hh with ⟨p, hp1, hp2⟩
          cases hp2
          rcases (ih p.1).mp (by rwa [← Prod.mk.eta (p := p)] at hp1) with ⟨h1, h2⟩
          subst h1
          refine ⟨by simp, ?_⟩
          intro hmem
          rcases List.mem_cons.mp hmem with rfl | hmem'
          · exact hc rfl
          · exact h2 hmem'
        · rintro ⟨hh, hmem⟩
          rcases List.cons.injEq .. ▸ hh with ⟨rfl, h2⟩
          have : splitComma t = some (ms, trail) :=
            (ih ms).mpr ⟨h2, fun hx => hmem (List.mem_cons_of_mem _ hx)⟩
          simp [this]

theorem parseUpToComma_eq_some_iff (rest : List Char) (n : Nat) :
    parseUpToComma rest = some n ↔
      ∃ mid trail, rest = mid ++ ',' :: trail ∧ ',' ∉ mid ∧
        parseU64Chars mid = some n := by
  unfold parseUpToComma
  cases hs : splitComma rest with
  | none =>
    constructor
    · intro hh; cases hh
    · rintro ⟨mid, trail, h1, h2, -⟩
      rw [(splitComma_eq_some_iff rest mid trail).mpr ⟨h1, h2⟩] at hs
      cases hs
  | some p =>
    obtain ⟨pre, rest'⟩ := p
    rcases (splitComma_eq_some_iff rest pre rest').mp hs with ⟨hsplit, hmem⟩
    constructor
    · intro hh
      exact ⟨pre, rest', hsplit, hmem, hh⟩
    · rintro ⟨mid, trail, h1, h2, h3⟩
      -- first-comma splits are unique, so `mid = pre`
      have : splitComma rest = some (mid, trail) :=
        (splitComma_eq_some_iff rest mid trail).mpr ⟨h1, h2⟩
      rw [hs] at this
      cases this
      exact h3

theorem getExpectedSequenceSingle_eq_some_iff (line : List Char) (n : Nat) :
    getExpectedSequenceSingle line = some n ↔ LineMatch line n := by
  unfold getExpectedSequenceSingle LineMatch
  cases hd : dropPre seqPat line with
  | none =>
    constructor
    · intro hh; cases hh
    · rintro ⟨mid, trail, h1, -, -⟩
      rw [(dropPre_eq_some_iff seqPat line (mid ++ ',' :: trail)).mpr (by simpa using h1)] at hd
      cases hd
  | some rest =>
    have hline : line = seqPat ++ rest := (dropPre_eq_some_iff seqPat line rest).mp hd
    subst hline
    rw [parseUpToComma_eq_some_iff]
    constructor
    · rintro ⟨mid, trail, h1, h2, h3⟩
      exact ⟨mid, trail, by simp [h1], h2, h3⟩
    · rintro ⟨mid, trail, h1, h2, h3⟩
      refine ⟨mid, trail, ?_, h2, h3⟩
      have := List.append_cancel_left (h1.symm ▸ rfl : seqPat ++ rest = seqPat ++ (mid ++ ',' :: trail))
      exact this

theorem getExpectedSequenceSingle_eq_none_iff (line : List Char) :
    getExpectedSequenceSingle line = none ↔ ∀ m, ¬ LineMatch line m := by
  cases h : getExpectedSequenceSingle line with
  | none =>
    simp only [true_iff]
    intro m hm
    rw [← getExpectedSequenceSingle_eq_some_iff] at hm
    rw [h] at hm
    cases hm
  | some v =>
    simp only [reduceCtorEq, false_iff, not_forall, not_not]
    exact ⟨v, (getExpectedSequenceSingle_eq_some_iff line v).mp h⟩

theorem findSome?_eq_some_iff {α β : Type} (f : α → Option β) (L : List α) (b : β) :
    L.findSome? f = some b ↔
      ∃ (i : Nat) (h : i < L.length), f (L.get ⟨i, h⟩) = some b ∧
        ∀ (j : Nat) (hj : j < i), f (L.get ⟨j, Nat.lt_trans hj h⟩) = none := by
  induction L with
  | nil =>
    simp [List.findSome?]
  | cons a t ih =>
    rw [List.findSome?]
    cases hfa : f a with
    | some v =>
      constructor
      · intro hh
        cases hh
        exact ⟨0, Nat.succ_pos _, by simpa using hfa,
          fun j hj => absurd hj (Nat.not_lt_zero j)⟩
      · rintro ⟨i, h, hfi, hprev⟩
        cases i with
        | zero => simpa [hfa] using hfi
        | succ k =>
          have := hprev 0 (Nat.succ_pos k)
          rw [List.get] at this
          rw [hfa] at this
          cases this
    | none =>
      rw [ih]
      constructor
      · rintro ⟨i, h, hfi, hprev⟩
        refine ⟨i + 1, Nat.succ_lt_succ h, by simpa using hfi, ?_⟩
        intro j hj
        cases j with
        | zero => simpa using hfa
        | succ k => simpa using hprev k (Nat.lt_of_succ_lt_succ hj)
      · rintro ⟨i, h, hfi, hprev⟩
        cases i with
        | zero =>
          rw [List.get] at hfi
          rw [hfa] at hfi
          cases hfi
        | succ k =>
          refine ⟨k, Nat.lt_of_succ_lt_succ h, by simpa using hfi, ?_⟩
          intro j hj
          simpa using hprev (j + 1) (Nat.succ_lt_succ hj)


/-- C3 counterexample: the claim reads the pattern as a substring anywhere in a
line, but `get_expected_sequence_single` uses `strip_prefix`, so a line whose
pattern occurrence is preceded by same-line text is not matched.  On
`"log: account sequence mismatch, expected 5, got 0"` the line contains the
pattern with a valid `N = 5` (the spec-modelled contains-detector returns 5),
yet the code's detector returns nothing. -/
theorem getExpectedSequence_contains_counterexample :
    Cosmos.containsSubB Cosmos.seqPat
      "log: account sequence mismatch, expected 5, got 0".data = true ∧
    Cosmos.specContainsDetector
      "log: account sequence mismatch, expected 5, got 0" = some 5 ∧
    Cosmos.getExpectedSequence
      "log: account sequence mismatch, expected 5, got 0" = none := by
  refine ⟨by decide, by decide, by decide⟩

/-- C3 (amended): `get_expected_sequence` returns `some n` exactly when some
line of the input *starts with* the pattern `"account sequence mismatch,
expected "`, followed by comma-free text parsing as a valid `u64` `n`, a
comma, and arbitrary trailing text, and `n` comes from the first such line;
multi-line prelude before the matching line and trailing text after the number
are tolerated, but same-line text before the pattern is not; it returns `none`
when no line matches so. -/
theorem getExpectedSequence_spec (s : String) (n : Nat) :
    Cosmos.getExpectedSequence s = some n ↔
      ∃ (i : Nat) (h : i < (Cosmos.rustLines s).length),
        Cosmos.LineMatch ((Cosmos.rustLines s).get ⟨i, h⟩) n ∧
        ∀ (j : Nat) (hj : j < i), ∀ m : Nat,
          ¬ Cosmos.LineMatch ((Cosmos.rustLines s).get ⟨j, Nat.lt_trans hj h⟩) m := by
  rw [Cosmos.getExpectedSequence, Cosmos.findSome?_eq_some_iff]
  constructor
  · rintro ⟨i, h, hfi, hprev⟩
    refine ⟨i, h, (Cosmos.getExpectedSequenceSingle_eq_some_iff _ n).mp hfi, ?_⟩
    intro j hj m
    exact (Cosmos.getExpectedSequenceSingle_eq_none_iff _).mp (hprev j hj) m
  · rintro ⟨i, h, hfi, hprev⟩
    refine ⟨i, h, (Cosmos.getExpectedSequenceSingle_eq_some_iff _ n).mpr hfi, ?_⟩
    intro j hj
    exact (Cosmos.getExpectedSequenceSingle_eq_none_iff _).mpr (fun m => hprev j hj m)

/-- Witness for C3 (amended): the canonical node message parses to 5 through
the amended characterization. -/
theorem getExpectedSequence_spec_witness :
    Cosmos.getExpectedSequence "account sequence mismatch, expected 5, got 0" = some 5 := by
  refine (getExpectedSequence_spec _ 5).mpr ⟨0, by decide, ?_, ?_⟩
  · exact ⟨['5'], " got 0".data, by decide, by decide, by decide⟩
  · intro j hj
    exact absurd hj (Nat.not_lt_zero j)

/-- C7: the per-attempt gas price equals `low + (high - low) / max_attempts *
attempt` for `attempt < max_attempts` and exactly `high` for `attempt >=
max_attempts`; it equals `low` at attempt 0 (when a positive attempt budget is
configured), is non-decreasing in the attempt number given `low <= high`, and
the interpolation reaches `high` exactly at `attempt == max_attempts`. -/
theorem gasPriceFor_interpolation (cfg : Cosmos.CosmosConfig) (a : Nat) :
    (a < cfg.gas_price_retry_attempts →
      Cosmos.gasPriceFor cfg a =
        cfg.gas_price_low +
          (cfg.gas_price_high - cfg.gas_price_low) / cfg.gas_price_retry_attempts * a) ∧
    (cfg.gas_price_retry_attempts ≤ a →
      Cosmos.gasPriceFor cfg a = cfg.gas_price_high) ∧
    (0 < cfg.gas_price_retry_attempts →
      Cosmos.gasPriceFor cfg 0 = cfg.gas_price_low) ∧
    (cfg.gas_price_low ≤ cfg.gas_price_high →
      Cosmos.gasPriceFor cfg a ≤ Cosmos.gasPriceFor cfg (a + 1)) ∧
    (0 < cfg.gas_price_retry_attempts →
      cfg.gas_price_low +
          (cfg.gas_price_high - cfg.gas_price_low) / cfg.gas_price_retry_attempts
            * cfg.gas_price_retry_attempts
        = cfg.gas_price_high) := by
  obtain ⟨mult, low, high, m, ta⟩ := cfg
  simp only [Cosmos.gasPriceFor]
  refine ⟨?_, ?_, ?_, ?_, ?_⟩
  · intro h
    rw [if_neg (by omega)]
  · intro h
    rw [if_pos h]
  · intro h
    rw [if_neg (by omega)]
    simp
  · intro hlh
    by_cases hm : m ≤ a
    · rw [if_pos hm, if_pos (by omega)]
    · have ham : a < m := by omega
      have hm0 : (0 : ℚ) < m := by
        have hh : 0 < m := by omega
        exact_mod_cast hh
      have hs : 0 ≤ (high - low) / m := div_nonneg (by linarith) (le_of_lt hm0)
      rw [if_neg (by omega)]
      by_cases hm1 : m ≤ a + 1
      · rw [if_pos hm1]
        have ha : (a : ℚ) ≤ m := by exact_mod_cast le_of_lt ham
        have h1 : (high - low) / m * a ≤ (high - low) / m * m :=
          mul_le_mul_of_nonneg_left ha hs
        rw [div_mul_cancel₀ _ (ne_of_gt hm0)] at h1
        linarith
      · rw [if_neg (by omega)]
        have ha : (a : ℚ) ≤ (a + 1 : Nat) := by exact_mod_cast Nat.le_succ a
        have := mul_le_mul_of_nonneg_left ha hs
        linarith
  · intro h
    have hm0 : (0 : ℚ) < m := by exact_mod_cast h
    rw [div_mul_cancel₀ _ (ne_of_gt hm0)]
    ring

/-- Witness for C7 at the default configuration: tier 1 of 3 prices at
`0.02 + (0.03 - 0.02)/3`, and any tier at or past the budget prices at
`high = 0.03`. -/
theorem gasPriceFor_interpolation_witness :
    Cosmos.gasPriceFor Cosmos.defaultConfig 1 = 7 / 300 ∧
    Cosmos.gasPriceFor Cosmos.defaultConfig 5 = 3 / 100 := by
  constructor
  · have h := (gasPriceFor_interpolation Cosmos.defaultConfig 1).1 (by decide)
    rw [h]
    norm_num [Cosmos.defaultConfig]
  · have h := (gasPriceFor_interpolation Cosmos.defaultConfig 5).2.1 (by decide)
    rw [h]
    norm_num [Cosmos.defaultConfig]


theorem selectN_no_wrap {α : Type} (bs : List α) (k : Nat) :
    ∀ i : Nat, i + k = bs.length →
      selectN ⟨bs, i⟩ k =
        ((bs.drop i).map some, ⟨bs, if k = 0 then i else 0⟩) := by
  induction k with
  | zero =>
    intro i h
    have hi : i = bs.length := by omega
    subst hi
    simp [selectN, List.drop_length]
  | succ k ih =>
    intro i h
    have hi : i < bs.length := by omega
    have hget : bs[i]? = some bs[i] := List.getElem?_eq_getElem hi
    have hdrop : bs.drop i = bs[i] :: bs.drop (i + 1) :=
      List.drop_eq_getElem_cons hi
    cases k with
    | zero =>
      have hlen : i + 1 = bs.length := by omega
      have hstep : getNextBuilder (⟨bs, i⟩ : CosmosBuilders α) =
          (some bs[i], ⟨bs, 0⟩) := by
        simp [getNextBuilder, hget, if_pos (by omega : i + 1 ≥ bs.length)]
      rw [selectN, hstep]
      have hnil : bs.drop (i + 1) = [] := by
        rw [hlen]
        exact List.drop_length bs
      simp [selectN, hdrop, hnil]
    | succ m =>
      have hlt : i + 1 + (m + 1) = bs.length := by omega
      have hstep : getNextBuilder (⟨bs, i⟩ : CosmosBuilders α) =
          (some bs[i], ⟨bs, i + 1⟩) := by
        simp [getNextBuilder, hget, if_neg (by omega : ¬ i + 1 ≥ bs.length)]
      rw [selectN, hstep, ih (i + 1) hlt, hdrop, List.map_cons]
      simp


/-- C9: with `N` registered endpoint builders and the cursor at zero, `N`
consecutive `get_next_builder` selections return each builder exactly once in
configured order (and leave the cursor back at zero); moreover from any state
whose cursor is a valid index, a selection returns the builder at the cursor
and the incremented-and-wrapped cursor is again a valid index into the
unchanged builder list. -/
theorem getNextBuilder_roundRobin (α : Type) :
    (∀ bs : List α, bs ≠ [] →
      Cosmos.selectN ⟨bs, 0⟩ bs.length = (bs.map some, ⟨bs, 0⟩)) ∧
    (∀ s : Cosmos.CosmosBuilders α,
      ∀ h : s.next_index < s.builders.length,
      (Cosmos.getNextBuilder s).1 = some (s.builders.get ⟨s.next_index, h⟩) ∧
      (Cosmos.getNextBuilder s).2.next_index < s.builders.length ∧
      (Cosmos.getNextBuilder s).2.builders = s.builders) := by
  constructor
  · intro bs hbs
    have h := Cosmos.selectN_no_wrap bs bs.length 0 (by omega)
    rw [h]
    have hlen : bs.length ≠ 0 := fun hz => hbs (List.length_eq_zero.mp hz)
    simp [if_neg hlen]
  · intro s h
    obtain ⟨bs, i⟩ := s
    have h' : i < bs.length := h
    have hget : bs[i]? = some bs[i] := List.getElem?_eq_getElem h
    have hstep : Cosmos.getNextBuilder (⟨bs, i⟩ : Cosmos.CosmosBuilders α) =
        (some bs[i], ⟨bs, if i + 1 ≥ bs.length then 0 else i + 1⟩) := by
      simp [Cosmos.getNextBuilder, hget]
    rw [hstep]
    refine ⟨by simp, ?_, rfl⟩
    by_cases hw : i + 1 ≥ bs.length
    · rw [if_pos hw]
      show 0 < bs.length
      omega
    · rw [if_neg hw]
      show i + 1 < bs.length
      omega

/-- Witness for C9: three builders, three selections, each chosen once in
order with the cursor wrapped back to zero. -/
theorem getNextBuilder_roundRobin_witness :
    Cosmos.selectN ⟨[10, 20, 30], 0⟩ 3 =
      ([some 10, some 20, some 30], ⟨[10, 20, 30], 0⟩) := by
  have h := (getNextBuilder_roundRobin Nat).1 [10, 20, 30] (by decide)
  simpa using h

theorem allBalances_terminates_of_stop (env : Nat → BalancesPage) :
    ∀ (j i : Nat) (acc : List Nat), balancesContinue (env (i + j)) = false →
      ∃ r, allBalances env i acc (j + 1) = some r := by
  intro j
  induction j with
  | zero =>
    intro i acc h
    simp only [Nat.add_zero] at h
    exact ⟨acc ++ (env i).balances, by simp [allBalances, h]⟩
  | succ j ih =>
    intro i acc h
    cases hc : balancesContinue (env i) with
    | false => exact ⟨acc ++ (env i).balances, by simp [allBalances, hc]⟩
    | true =>
      have h' : balancesContinue (env (i + 1 + j)) = false := by
        rw [show i + 1 + j = i + (j + 1) by omega]
        exact h
      obtain ⟨r, hr⟩ := ih (i + 1) (acc ++ (env i).balances) h'
      refine ⟨r, ?_⟩
      rw [allBalances, if_pos hc]
      exact hr

theorem allBalances_stop_of_terminates (env : Nat → BalancesPage) :
    ∀ (fuel i : Nat) (acc r : List Nat), allBalances env i acc fuel = some r →
      ∃ j, balancesContinue (env (i + j)) = false := by
  intro fuel
  induction fuel with
  | zero =>
    intro i acc r h
    cases h
  | succ fuel ih =>
    intro i acc r h
    rw [allBalances] at h
    cases hc : balancesContinue (env i) with
    | false => exact ⟨0, by simpa using hc⟩
    | true =>
      rw [if_pos hc] at h
      obtain ⟨j, hj⟩ := ih (i + 1) (acc ++ (env i).balances) r h
      exact ⟨j + 1, by rw [show i + (j + 1) = i + 1 + j by omega]; exact hj⟩

theorem queryGranterGrants_terminates_of_empty (env : Nat → GrantsPage) :
    ∀ (j i : Nat) (acc : List Nat), (env (i + j)).grants = [] →
      ∃ r, queryGranterGrants env i acc (j + 1) = some r := by
  intro j
  induction j with
  | zero =>
    intro i acc h
    simp only [Nat.add_zero] at h
    exact ⟨acc, by simp [queryGranterGrants, h]⟩
  | succ j ih =>
    intro i acc h
    cases hc : (env i).grants.isEmpty with
    | true => exact ⟨acc, by simp [queryGranterGrants, hc]⟩
    | false =>
      have h' : (env (i + 1 + j)).grants = [] := by
        rw [show i + 1 + j = i + (j + 1) by omega]
        exact h
      obtain ⟨r, hr⟩ := ih (i + 1) (acc ++ (env i).grants) h'
      refine ⟨r, ?_⟩
      rw [queryGranterGrants, if_neg (by simp [hc])]
      exact hr

theorem queryGranterGrants_empty_of_terminates (env : Nat → GrantsPage) :
    ∀ (fuel i : Nat) (acc r : List Nat), queryGranterGrants env i acc fuel = some r →
      ∃ j, (env (i + j)).grants = [] := by
  intro fuel
  induction fuel with
  | zero =>
    intro i acc r h
    cases h
  | succ fuel ih =>
    intro i acc r h
    rw [queryGranterGrants] at h
    cases hc : (env i).grants.isEmpty with
    | true => exact ⟨0, by simpa using List.isEmpty_iff.mp hc⟩
    | false =>
      rw [if_neg (by simp [hc])] at h
      obtain ⟨j, hj⟩ := ih (i + 1) (acc ++ (env i).grants) r h
      exact ⟨j + 1, by rw [show i + (j + 1) = i + 1 + j by omega]; exact hj⟩

/-- C8 counterexample: a malformed source that keeps answering `all_balances`
with zero items and a non-empty next key.  The claim says the loop ends after
such a page; in fact the zero-item page with a non-empty key satisfies the
continue condition, and the loop is still running after five full iterations
(and, by `allBalances_stop_of_terminates`, under this source it never
returns). -/
theorem allBalances_zero_items_counterexample :
    (⟨[], some ⟨[1]⟩⟩ : BalancesPage).balances = [] ∧
    balancesContinue ⟨[], some ⟨[1]⟩⟩ = true ∧
    allBalances (fun _ => ⟨[], some ⟨[1]⟩⟩) 0 [] 5 = none := by
  exact ⟨rfl, by decide, by decide⟩

/-- C8 (amended): the `query_granter_grants` loop terminates exactly when some
page returns zero newly returned items — even when that page carries a
non-empty next-page key — whereas the `all_balances` loop terminates exactly
when some page's pagination is absent or carries an empty next key, regardless
of how many items pages return; in particular a malformed source giving
`all_balances` only empty pages with non-empty next keys makes that loop spin
forever. -/
theorem pagination_termination (env : Nat → GrantsPage)
    (env' : Nat → BalancesPage) (acc acc' : List Nat) :
    ((∃ fuel r, queryGranterGrants env 0 acc fuel = some r) ↔
      (∃ j, (env j).grants = [])) ∧
    ((∃ fuel r, allBalances env' 0 acc' fuel = some r) ↔
      (∃ j, balancesContinue (env' j) = false)) := by
  constructor
  · constructor
    · rintro ⟨fuel, r, h⟩
      simpa using queryGranterGrants_empty_of_terminates env fuel 0 acc r h
    · rintro ⟨j, hj⟩
      obtain ⟨r, hr⟩ := queryGranterGrants_terminates_of_empty env j 0 acc (by simpa using hj)
      exact ⟨j + 1, r, hr⟩
  · constructor
    · rintro ⟨fuel, r, h⟩
      simpa using allBalances_stop_of_terminates env' fuel 0 acc' r h
    · rintro ⟨j, hj⟩
      obtain ⟨r, hr⟩ := allBalances_terminates_of_stop env' j 0 acc' (by simpa using hj)
      exact ⟨j + 1, r, hr⟩

/-- Witness for C8 (amended): a grants source whose third page has zero items
but still a non-empty next key terminates the grants loop, and a balances
source whose first page has an absent pagination terminates the balances
loop. -/
theorem pagination_termination_witness :
    (∃ fuel r, queryGranterGrants
      (fun j => if j < 2 then ⟨[j], some ⟨[5]⟩⟩ else ⟨[], some ⟨[5]⟩⟩) 0 [] fuel = some r) ∧
    (∃ fuel r, allBalances (fun _ => ⟨[7], none⟩) 0 [] fuel = some r) := by
  constructor
  · exact (pagination_termination
      (fun j => if j < 2 then ⟨[j], some ⟨[5]⟩⟩ else ⟨[], some ⟨[5]⟩⟩)
      (fun _ => ⟨[7], none⟩) [] []).1.mpr ⟨2, by decide⟩
  · exact (pagination_termination
      (fun j => if j < 2 then ⟨[j], some ⟨[5]⟩⟩ else ⟨[], some ⟨[5]⟩⟩)
      (fun _ => ⟨[7], none⟩) [] []).2.mpr ⟨0, by decide⟩

theorem isPreB_self_append (n r : List Char) : isPreB n (n ++ r) = true := by
  induction n with
  | nil => rfl
  | cons c cs ih => simp [isPreB, ih]

theorem containsSubB_of_isPre (n h : List Char) (hp : isPreB n h = true) :
    containsSubB n h = true := by
  cases h with
  | nil => simpa [containsSubB] using hp
  | cons c t => simp [containsSubB, hp]

theorem containsSubB_append_left (n pre rest : List Char)
    (h : containsSubB n rest = true) : containsSubB n (pre ++ rest) = true := by
  induction pre with
  | nil => simpa using h
  | cons c t ih => simp [containsSubB, ih]

/-- C6 counterexample: with an attempt budget of 2 and a node that keeps
reporting not-found (via the message substring), the poll exhausts both
attempts and fails with `"Timed out waiting for AB to be ready"` — a message
that names the hash but nowhere contains the attempt budget `2`. -/
theorem waitForTransaction_timeout_counterexample :
    waitForTransactionBody ⟨13 / 10, 2 / 100, 3 / 100, 3, 2⟩ "AB"
        (fun _ => .error ⟨false, "tx AB not found"⟩)
      = (.error "Timed out waiting for AB to be ready", 2, 2) ∧
    containsSubB (Nat.repr 2).data
      "Timed out waiting for AB to be ready".data = false := by
  exact ⟨rfl, by decide⟩

/-- C6 (amended): the poll queries get-transaction-by-hash at most the
configured attempt count many times (default 30); whenever the node reports
not-found — by status code or by the substring "not found" in the message —
it sleeps 2 seconds and moves to the next attempt, so a permanently
not-found node consumes exactly the full budget of queries and sleeps and
yields the distinct timeout failure, whose message names the transaction hash
(but not the attempt budget); a successful response returns immediately after
one query, and any other error aborts immediately with that error. -/
theorem waitForTransaction_spec :
    defaultConfig.transaction_attempts = 30 ∧
    (∀ (txhash : String) (env : Nat → Except GrpcStatus GetTxResponse)
        (a fuel : Nat), (waitForTransactionGo txhash env a fuel).2.1 ≤ fuel) ∧
    (∀ (txhash : String) (env : Nat → Except GrpcStatus GetTxResponse)
        (a fuel : Nat),
      (∀ k, ∃ st, env k = .error st ∧ notFoundish st = true) →
      waitForTransactionGo txhash env a fuel
        = (.error (timeoutMessage txhash), fuel, fuel)) ∧
    (∀ txhash : String,
      containsSubB txhash.data (timeoutMessage txhash).data = true) ∧
    (∀ (txhash : String) (env : Nat → Except GrpcStatus GetTxResponse)
        (a fuel b : Nat) (tr : TxResponse) (r : GetTxResponse),
      env a = .ok r → r.tx = some (some b) → r.tx_response = some tr →
      waitForTransactionGo txhash env a (fuel + 1) = (.ok (b, tr), 1, 0)) ∧
    (∀ (txhash : String) (env : Nat → Except GrpcStatus GetTxResponse)
        (a fuel : Nat) (st : GrpcStatus),
      env a = .error st → notFoundish st = false →
      waitForTransactionGo txhash env a (fuel + 1)
        = (.error st.message, 1, 0)) := by
  refine ⟨rfl, ?_, ?_, ?_, ?_, ?_⟩
  · intro txhash env a fuel
    induction fuel generalizing a with
    | zero => simp [waitForTransactionGo]
    | succ n ih =>
      rw [waitForTransactionGo]
      cases henv : env a with
      | ok r =>
        obtain ⟨tx, txr⟩ := r
        cases tx with
        | none => exact Nat.succ_le_succ (Nat.zero_le n)
        | some b? =>
          cases b? with
          | none => exact Nat.succ_le_succ (Nat.zero_le n)
          | some b =>
            cases txr with
            | none => exact Nat.succ_le_succ (Nat.zero_le n)
            | some tr => exact Nat.succ_le_succ (Nat.zero_le n)
      | error st =>
        by_cases hn : notFoundish st = true
        · have := ih (a + 1)
          simp only [hn, if_true]
          omega
        · simp only [Bool.not_eq_true] at hn
          simp [hn]
  · intro txhash env a fuel hall
    induction fuel generalizing a with
    | zero => rfl
    | succ n ih =>
      obtain ⟨st, hst, hnf⟩ := hall a
      rw [waitForTransactionGo, hst]
      simp only [hnf, if_true]
      rw [ih (a + 1)]
  · intro txhash
    have h1 : (timeoutMessage txhash).data
        = "Timed out waiting for ".data ++ (txhash.data ++ " to be ready".data) := by
      simp [timeoutMessage, List.append_assoc]
    rw [h1]
    exact containsSubB_append_left _ _ _
      (containsSubB_of_isPre _ _ (isPreB_self_append _ _))
  · intro txhash env a fuel b tr r henv htx htr
    simp only [waitForTransactionGo, henv, htx, htr]
  · intro txhash env a fuel st henv hn
    simp only [waitForTransactionGo, henv, hn]
    simp

/-- Witness for C6 (amended): a two-attempt budget against a node that always
answers "tx AB not found" exhausts both attempts with two sleeps and the
timeout failure. -/
theorem waitForTransaction_spec_witness :
    waitForTransactionGo "AB" (fun _ => .error ⟨false, "tx AB not found"⟩) 1 2
      = (.error (timeoutMessage "AB"), 2, 2) := by
  exact waitForTransaction_spec.2.2.1 "AB" _ 1 2
    (fun k => ⟨⟨false, "tx AB not found"⟩, rfl, by decide⟩)

theorem run13_le (p : Nat → Bool) : ∀ (n i : Nat), run13 p i n ≤ n := by
  intro n
  induction n with
  | zero => intro i; exact Nat.le_refl 0
  | succ n ih =>
    intro i
    rw [run13]
    by_cases h : p i = true
    · rw [if_pos h]
      exact Nat.succ_le_succ (ih (i + 1))
    · rw [if_neg h]
      exact Nat.zero_le _

theorem run13_zero (p : Nat → Bool) (i n : Nat) (h : p i = false) :
    run13 p i n = 0 := by
  cases n with
  | zero => rfl
  | succ n => simp [run13, h]

theorem run13_lt (p : Nat → Bool) : ∀ (n i j : Nat), j < run13 p i n →
    p (i + j) = true := by
  intro n
  induction n with
  | zero =>
    intro i j hj
    cases hj
  | succ n ih =>
    intro i j hj
    rw [run13] at hj
    by_cases h : p i = true
    · rw [if_pos h] at hj
      cases j with
      | zero => simpa using h
      | succ k =>
        have := ih (i + 1) k (Nat.lt_of_succ_lt_succ hj)
        rwa [show i + 1 + k = i + (k + 1) by omega] at this
    · rw [if_neg h] at hj
      cases hj

theorem run13_ge (p : Nat → Bool) : ∀ (n i c : Nat), c < n →
    (∀ j, j ≤ c → p (i + j) = true) → c + 1 ≤ run13 p i n := by
  intro n
  induction n with
  | zero =>
    intro i c hc
    cases hc
  | succ n ih =>
    intro i c hc hall
    have hpi : p i = true := by simpa using hall 0 (Nat.zero_le c)
    rw [run13, if_pos hpi]
    cases c with
    | zero => exact Nat.succ_le_succ (Nat.zero_le _)
    | succ c' =>
      have hall' : ∀ j, j ≤ c' → p (i + 1 + j) = true := by
        intro j hj
        rw [show i + 1 + j = i + (j + 1) by omega]
        exact hall (j + 1) (Nat.succ_le_succ hj)
      exact Nat.succ_le_succ (ih (i + 1) c' (Nat.lt_of_succ_lt_succ hc) hall')

theorem run13_full (p : Nat → Bool) : ∀ (n i : Nat),
    (∀ j, j ≤ n → p (i + j) = true) → run13 p i n = n := by
  intro n
  induction n with
  | zero => intro i _; rfl
  | succ n ih =>
    intro i hall
    have hpi : p i = true := by simpa using hall 0 (Nat.zero_le _)
    rw [run13, if_pos hpi, ih (i + 1)]
    intro j hj
    rw [show i + 1 + j = i + (j + 1) by omega]
    exact hall (j + 1) (Nat.succ_le_succ hj)

theorem sbGo_trace (retry : Nat → Except AttemptError TxResponse)
    (amount : Nat → Nat) : ∀ (n i : Nat),
    (sbGo retry amount i n).1
      = (List.range' i (run13 (fun k => isIG (retry k)) i n + 1)).map amount := by
  intro n
  induction n with
  | zero =>
    intro i
    simp [sbGo, run13, List.range'_one]
  | succ n ih =>
    intro i
    rw [sbGo]
    cases hr : retry i with
    | ok x =>
      rw [run13_zero _ _ _ (by simp [isIG, hr])]
      simp [List.range'_one]
    | error ae =>
      cases ae with
      | inner e =>
        rw [run13_zero _ _ _ (by simp [isIG, hr])]
        simp [List.range'_one]
      | insufficientGas e =>
        have hp : (fun k => isIG (retry k)) i = true := by simp [isIG, hr]
        rw [run13, if_pos hp]
        show amount i :: (sbGo retry amount (i + 1) n).1 = _
        rw [ih (i + 1),
          show List.range' i (run13 (fun k => isIG (retry k)) (i + 1) n + 1 + 1)
              = i :: List.range' (i + 1) (run13 (fun k => isIG (retry k)) (i + 1) n + 1)
            by rw [List.range'_succ],
          List.map_cons]

theorem sbGo_result (retry : Nat → Except AttemptError TxResponse)
    (amount : Nat → Nat) : ∀ (n i : Nat),
    (sbGo retry amount i n).2
      = (match retry (i + run13 (fun k => isIG (retry k)) i n) with
        | .ok x => .ok x
        | .error (.inner e) => .error e
        | .error (.insufficientGas e) => .error (.realError e)) := by
  intro n
  induction n with
  | zero =>
    intro i
    rw [run13]
    simp only [Nat.add_zero, sbGo]
    cases retry i with
    | ok x => rfl
    | error ae => cases ae <;> rfl
  | succ n ih =>
    intro i
    rw [sbGo]
    cases hr : retry i with
    | ok x =>
      rw [run13_zero _ _ _ (by simp [isIG, hr])]
      simp [hr]
    | error ae =>
      cases ae with
      | inner e =>
        rw [run13_zero _ _ _ (by simp [isIG, hr])]
        simp [hr]
      | insufficientGas e =>
        have hp : (fun k => isIG (retry k)) i = true := by simp [isIG, hr]
        rw [run13, if_pos hp]
        show (sbGo retry amount (i + 1) n).2 = _
        rw [ih (i + 1), show i + (run13 (fun k => isIG (retry k)) (i + 1) n + 1)
          = i + 1 + run13 (fun k => isIG (retry k)) (i + 1) n by omega]

theorem sbGo_stop_inner (retry : Nat → Except AttemptError TxResponse)
    (amount : Nat → Nat) (i n : Nat) (e : ExpectedSequenceError)
    (h : retry i = .error (.inner e)) :
    sbGo retry amount i n = ([amount i], .error e) := by
  cases n <;> simp [sbGo, h]

theorem sbGo_stop_ok (retry : Nat → Except AttemptError TxResponse)
    (amount : Nat → Nat) (i n : Nat) (x : TxResponse) (h : retry i = .ok x) :
    sbGo retry amount i n = ([amount i], .ok x) := by
  cases n <;> simp [sbGo, h]

theorem isIG_retryWithPrice (e : AttemptEnv) :
    isIG (retryWithPrice false e)
      = (match e.syncRes with
        | .ok r => r.code == 13
        | .error _ => false) := by
  rcases e with ⟨sync, fin⟩
  cases sync with
  | error msg => rfl
  | ok res =>
    show isIG (retryWithPrice false ⟨.ok res, fin⟩) = (res.code == 13)
    by_cases h13 : res.code = 13
    · have hrw : retryWithPrice false ⟨.ok res, fin⟩
          = .error (.insufficientGas (.broadcastFailed res.code res.raw_log)) := by
        simp [retryWithPrice, h13]
      rw [hrw]
      simp [isIG, h13]
    · have : isIG (retryWithPrice false ⟨.ok res, fin⟩) = false := by
        simp only [retryWithPrice]
        by_cases h0 : res.code = 0
        · rw [if_neg (by simp [h0])]
          cases fin with
          | error m => rfl
          | ok fres =>
            by_cases hf : fres.code = 0
            · simp [isIG, hf]
            · simp [isIG, hf]
        · rw [if_pos ⟨by simp, h0⟩, if_neg h13]
          cases getExpectedSequence res.raw_log <;> rfl
      rw [this]
      simp [h13]

theorem retryWithPrice_13 (e : AttemptEnv) (r : TxResponse)
    (hs : e.syncRes = .ok r) (h13 : r.code = 13) :
    retryWithPrice false e
      = .error (.insufficientGas (.broadcastFailed 13 (syncRawLog e))) := by
  rcases e with ⟨sync, fin⟩
  simp only at hs
  subst hs
  simp [retryWithPrice, syncRawLog, h13]

/-- C1: with code checking on, the gas-price retry loop makes at most
`gas_price_retry_attempts + 1` broadcast attempts, the attempts offered are
exactly the `gas_to_coins` amounts at consecutive tiers 0, 1, ..., the loop
advances past attempt `i` exactly when that attempt's synchronous response
has result code 13, the final attempt's tier is priced exactly at the high
gas price, and if every tier reports code 13 the operation returns the last
attempt's underlying error. -/
theorem signAndBroadcastWith_gas_retry (cfg : CosmosConfig) (gas : Nat)
    (env : Nat → AttemptEnv) :
    (signAndBroadcastWith cfg false gas env).1.length
        ≤ cfg.gas_price_retry_attempts + 1 ∧
    (∃ k, 0 < k ∧ (signAndBroadcastWith cfg false gas env).1
        = (List.range k).map (gasToCoins cfg gas)) ∧
    (∀ i, i + 1 < (signAndBroadcastWith cfg false gas env).1.length →
      is13 env i = true) ∧
    (∀ i, i < cfg.gas_price_retry_attempts → (∀ j, j ≤ i → is13 env j = true) →
      i + 1 < (signAndBroadcastWith cfg false gas env).1.length) ∧
    gasPriceFor cfg cfg.gas_price_retry_attempts = cfg.gas_price_high ∧
    ((∀ j, j ≤ cfg.gas_price_retry_attempts → is13 env j = true) →
      (signAndBroadcastWith cfg false gas env).1.length
          = cfg.gas_price_retry_attempts + 1 ∧
      (signAndBroadcastWith cfg false gas env).2
        = .error (.realError (.broadcastFailed 13
            (syncRawLog (env cfg.gas_price_retry_attempts))))) := by
  have hp : (fun k => isIG (retryWithPrice false (env k))) = is13 env := by
    funext k
    rw [isIG_retryWithPrice]
    rfl
  have htr : (signAndBroadcastWith cfg false gas env).1
      = (List.range' 0 (run13 (is13 env) 0 cfg.gas_price_retry_attempts + 1)).map
          (gasToCoins cfg gas) := by
    rw [signAndBroadcastWith, sbGo_trace, hp]
  have hlen : (signAndBroadcastWith cfg false gas env).1.length
      = run13 (is13 env) 0 cfg.gas_price_retry_attempts + 1 := by
    rw [htr]
    simp
  refine ⟨?_, ?_, ?_, ?_, ?_, ?_⟩
  · rw [hlen]
    exact Nat.succ_le_succ (run13_le _ _ _)
  · refine ⟨run13 (is13 env) 0 cfg.gas_price_retry_attempts + 1, Nat.succ_pos _, ?_⟩
    rw [htr, List.range_eq_range']
  · intro i hi
    rw [hlen] at hi
    have := run13_lt (is13 env) cfg.gas_price_retry_attempts 0 i
      (Nat.lt_of_succ_lt_succ hi)
    simpa using this
  · intro i hi hall
    rw [hlen]
    refine Nat.succ_lt_succ ?_
    have := run13_ge (is13 env) cfg.gas_price_retry_attempts 0 i hi
      (fun j hj => by simpa using hall j hj)
    omega
  · simp [gasPriceFor]
  · intro hall
    have hfull : run13 (is13 env) 0 cfg.gas_price_retry_attempts
        = cfg.gas_price_retry_attempts :=
      run13_full _ _ _ (fun j hj => by simpa using hall j hj)
    refine ⟨by rw [hlen, hfull], ?_⟩
    have h13 : is13 env cfg.gas_price_retry_attempts = true :=
      hall _ (Nat.le_refl _)
    obtain ⟨r, hr, hrc⟩ : ∃ r,
        (env cfg.gas_price_retry_attempts).syncRes = .ok r ∧ r.code = 13 := by
      unfold is13 at h13
      cases hsr : (env cfg.gas_price_retry_attempts).syncRes with
      | ok r =>
        rw [hsr] at h13
        exact ⟨r, rfl, by simpa using h13⟩
      | error m =>
        rw [hsr] at h13
        cases h13
    have hretry := retryWithPrice_13 (env cfg.gas_price_retry_attempts) r hr hrc
    rw [signAndBroadcastWith, sbGo_result, hp, hfull]
    simp only [Nat.zero_add]
    rw [hretry]

/-- Witness for C1: with the default config (3 retry attempts) and a node
reporting code 13 at every tier, all four tiers are tried at the interpolated
amounts for 1000 gas units and the last attempt's error is surfaced. -/
theorem signAndBroadcastWith_gas_retry_witness :
    (signAndBroadcastWith defaultConfig false 1000
        (fun _ => ⟨.ok ⟨13, "oops", "H"⟩, .ok ⟨0, "", "H"⟩⟩)).1.length = 4 ∧
    (signAndBroadcastWith defaultConfig false 1000
        (fun _ => ⟨.ok ⟨13, "oops", "H"⟩, .ok ⟨0, "", "H"⟩⟩)).2
      = .error (.realError (.broadcastFailed 13 "oops")) := by
  have h := (signAndBroadcastWith_gas_retry defaultConfig 1000
    (fun _ => ⟨.ok ⟨13, "oops", "H"⟩, .ok ⟨0, "", "H"⟩⟩)).2.2.2.2.2
    (fun j _ => rfl)
  exact ⟨h.1, h.2⟩

theorem retryWithPrice_final_fail (e : AttemptEnv) (r f : TxResponse)
    (hs : e.syncRes = .ok r) (h0 : r.code = 0) (hf : e.finalRes = .ok f)
    (hfc : f.code ≠ 0) :
    retryWithPrice false e
      = .error (.inner (.realError (.txFailed f.code f.raw_log))) := by
  rcases e with ⟨sync, fin⟩
  simp only at hs hf
  subst hs
  subst hf
  simp [retryWithPrice, h0, hfc]

theorem retryWithPrice_seq (e : AttemptEnv) (r : TxResponse) (n : Nat)
    (hs : e.syncRes = .ok r) (h0 : r.code ≠ 0) (h13 : r.code ≠ 13)
    (hdet : getExpectedSequence r.raw_log = some n) :
    retryWithPrice false e
      = .error (.inner (.newNumber n (.broadcastFailed r.code r.raw_log))) := by
  rcases e with ⟨sync, fin⟩
  simp only at hs
  subst hs
  simp [retryWithPrice, h0, h13, hdet]

theorem retryWithPrice_skip_sync_error (e : AttemptEnv) (msg : String)
    (hs : e.syncRes = .error msg) :
    retryWithPrice true e
      = .error (.inner (.realError (.broadcastTransport msg))) := by
  rcases e with ⟨sync, fin⟩
  simp only at hs
  subst hs
  rfl

theorem retryWithPrice_skip_wait_error (e : AttemptEnv) (r : TxResponse)
    (msg : String) (hs : e.syncRes = .ok r) (hf : e.finalRes = .error msg) :
    retryWithPrice true e = .error (.inner (.realError (.waitError msg))) := by
  rcases e with ⟨sync, fin⟩
  simp only at hs hf
  subst hs
  subst hf
  simp [retryWithPrice]

theorem retryWithPrice_skip_ok (e : AttemptEnv) (r f : TxResponse)
    (hs : e.syncRes = .ok r) (hf : e.finalRes = .ok f) :
    retryWithPrice true e = .ok f := by
  rcases e with ⟨sync, fin⟩
  simp only at hs hf
  subst hs
  subst hf
  simp [retryWithPrice]

theorem isIG_retryWithPrice_skip (e : AttemptEnv) :
    isIG (retryWithPrice true e) = false := by
  rcases e with ⟨sync, fin⟩
  cases sync with
  | error m => rfl
  | ok r =>
    simp only [retryWithPrice]
    rw [if_neg (by simp)]
    cases fin with
    | error m => rfl
    | ok f => simp [isIG]

/-- C4: once the synchronous broadcast was accepted (code 0) and the finality
poll returned the final response, a non-zero final code ends the submission
after that single attempt with the "Transaction failed" error: no
gas-price-tier retry happens even when the final code is 13, and no sequence
retry happens at the outer call site even when the final raw log parses as a
sequence mismatch (the final code and raw log are arbitrary here); with
skip_code_check set the same final response is instead returned as the
result. -/
theorem finality_code_terminal (cfg : CosmosConfig) (gas s0 : Nat)
    (env : Nat → AttemptEnv) (benv : Nat → Nat → AttemptEnv)
    (r f : TxResponse) (hs : (env 0).syncRes = .ok r) (h0 : r.code = 0)
    (hf : (env 0).finalRes = .ok f) (hbenv : benv s0 = env) :
    (f.code ≠ 0 →
      signAndBroadcastWith cfg false gas env
        = ([gasToCoins cfg gas 0],
            .error (.realError (.txFailed f.code f.raw_log)))) ∧
    (f.code ≠ 0 →
      innerSignAndBroadcast cfg false gas benv s0
        = ([s0], .error (.txFailed f.code f.raw_log))) ∧
    signAndBroadcastWith cfg true gas env = ([gasToCoins cfg gas 0], .ok f) := by
  have hsb : ∀ hfc : f.code ≠ 0,
      signAndBroadcastWith cfg false gas env
        = ([gasToCoins cfg gas 0],
            .error (.realError (.txFailed f.code f.raw_log))) := by
    intro hfc
    rw [signAndBroadcastWith]
    exact sbGo_stop_inner _ _ 0 _ _
      (retryWithPrice_final_fail (env 0) r f hs h0 hf hfc)
  refine ⟨hsb, ?_, ?_⟩
  · intro hfc
    rw [innerSignAndBroadcast, hbenv, (hsb hfc)]
  · rw [signAndBroadcastWith]
    exact sbGo_stop_ok _ _ 0 _ _ (retryWithPrice_skip_ok (env 0) r f hs hf)

/-- Witness for C4: the accepted transaction's final response has code 13 and
a raw log that parses as a sequence mismatch, yet the operation ends
immediately with the terminal "Transaction failed" error, and with
skip_code_check it returns that final response. -/
theorem finality_code_terminal_witness :
    signAndBroadcastWith defaultConfig false 5
        (fun _ => ⟨.ok ⟨0, "", "H"⟩,
          .ok ⟨13, "account sequence mismatch, expected 7, got 1", "H"⟩⟩)
      = ([gasToCoins defaultConfig 5 0],
          .error (.realError
            (.txFailed 13 "account sequence mismatch, expected 7, got 1"))) ∧
    signAndBroadcastWith defaultConfig true 5
        (fun _ => ⟨.ok ⟨0, "", "H"⟩,
          .ok ⟨13, "account sequence mismatch, expected 7, got 1", "H"⟩⟩)
      = ([gasToCoins defaultConfig 5 0],
          .ok ⟨13, "account sequence mismatch, expected 7, got 1", "H"⟩) := by
  have h := finality_code_terminal defaultConfig 5 0
    (fun _ => ⟨.ok ⟨0, "", "H"⟩,
      .ok ⟨13, "account sequence mismatch, expected 7, got 1", "H"⟩⟩)
    (fun _ _ => ⟨.ok ⟨0, "", "H"⟩,
      .ok ⟨13, "account sequence mismatch, expected 7, got 1", "H"⟩⟩)
    ⟨0, "", "H"⟩ ⟨13, "account sequence mismatch, expected 7, got 1", "H"⟩
    rfl rfl rfl rfl
  exact ⟨h.1 (by decide), h.2.2⟩

/-- C10: with skip_code_check set, exactly one broadcast attempt is made,
offering the tier-0 coin amount; the result-code checks after the synchronous
broadcast and after the finality poll are skipped, so no gas-price-tier retry
and no sequence classification can be triggered by a result code, and the
operation returns the finality poll's response whatever its code; transport
errors on broadcast and finality-poll failures still fail the operation. -/
theorem skipCodeCheck_single_attempt (cfg : CosmosConfig) (gas : Nat)
    (env : Nat → AttemptEnv) :
    (signAndBroadcastWith cfg true gas env).1 = [gasToCoins cfg gas 0] ∧
    (∀ msg, (env 0).syncRes = .error msg →
      (signAndBroadcastWith cfg true gas env).2
        = .error (.realError (.broadcastTransport msg))) ∧
    (∀ r msg, (env 0).syncRes = .ok r → (env 0).finalRes = .error msg →
      (signAndBroadcastWith cfg true gas env).2
        = .error (.realError (.waitError msg))) ∧
    (∀ r f, (env 0).syncRes = .ok r → (env 0).finalRes = .ok f →
      (signAndBroadcastWith cfg true gas env).2 = .ok f) := by
  refine ⟨?_, ?_, ?_, ?_⟩
  · rw [signAndBroadcastWith, sbGo_trace,
      run13_zero _ _ _ (isIG_retryWithPrice_skip (env 0))]
    simp [List.range'_one]
  · intro msg hs
    rw [signAndBroadcastWith,
      sbGo_stop_inner _ _ 0 _ _ (retryWithPrice_skip_sync_error (env 0) msg hs)]
  · intro r msg hs hf
    rw [signAndBroadcastWith,
      sbGo_stop_inner _ _ 0 _ _ (retryWithPrice_skip_wait_error (env 0) r msg hs hf)]
  · intro r f hs hf
    rw [signAndBroadcastWith,
      sbGo_stop_ok _ _ 0 _ _ (retryWithPrice_skip_ok (env 0) r f hs hf)]

/-- Witness for C10: a synchronous code of 13 (which would otherwise trigger a
gas-price tier retry) is ignored under skip_code_check, and the final
response, itself with a non-zero code, is returned after the single tier-0
attempt. -/
theorem skipCodeCheck_single_attempt_witness :
    (signAndBroadcastWith defaultConfig true 5
        (fun _ => ⟨.ok ⟨13, "oops", "H"⟩, .ok ⟨5, "fail", "H"⟩⟩)).1
      = [gasToCoins defaultConfig 5 0] ∧
    (signAndBroadcastWith defaultConfig true 5
        (fun _ => ⟨.ok ⟨13, "oops", "H"⟩, .ok ⟨5, "fail", "H"⟩⟩)).2
      = .ok ⟨5, "fail", "H"⟩ := by
  have h := skipCodeCheck_single_attempt defaultConfig 5
    (fun _ => ⟨.ok ⟨13, "oops", "H"⟩, .ok ⟨5, "fail", "H"⟩⟩)
  exact ⟨h.1, h.2.2.2 ⟨13, "oops", "H"⟩ ⟨5, "fail", "H"⟩ rfl rfl⟩

/-- C2: a sequence-mismatch error is retried exactly once per call site with
the node-reported corrected sequence.  At the simulate site: a simulate error
whose text parses to `n` causes exactly one redo at sequence `n`, and any
error there — a second mismatch included — is fatal, surfacing its underlying
error, while a non-parsing error is fatal immediately with no redo.  At the
sign-and-broadcast site: a `NewNumber n` outcome causes exactly one redo of
the whole sign/broadcast at sequence `n`, any error there being fatal the same
way, while a `RealError` is fatal immediately; the `NewNumber` classification
arises exactly from the detector on the synchronous raw log (last
conjunct). -/
theorem sequence_mismatch_one_retry (cfg : CosmosConfig) (gas : Nat)
    (rpc : Nat → Except String (Option Nat)) (benv : Nat → Nat → AttemptEnv)
    (s0 : Nat) :
    ((simulate rpc s0).1.length ≤ 2) ∧
    (∀ msg n, rpc s0 = .error msg → getExpectedSequence msg = some n →
      (simulate rpc s0).1 = [s0, n] ∧
      (∀ e2, simulateInner rpc n = .error e2 →
        (simulate rpc s0).2 = .error e2.toError)) ∧
    (∀ msg, rpc s0 = .error msg → getExpectedSequence msg = none →
      simulate rpc s0 = ([s0], .error (.unableToSimulate msg))) ∧
    ((innerSignAndBroadcast cfg false gas benv s0).1.length ≤ 2) ∧
    (∀ n e, (signAndBroadcastWith cfg false gas (benv s0)).2
        = .error (.newNumber n e) →
      (innerSignAndBroadcast cfg false gas benv s0).1 = [s0, n] ∧
      (∀ e2, (signAndBroadcastWith cfg false gas (benv n)).2 = .error e2 →
        (innerSignAndBroadcast cfg false gas benv s0).2 = .error e2.toError)) ∧
    (∀ e, (signAndBroadcastWith cfg false gas (benv s0)).2
        = .error (.realError e) →
      innerSignAndBroadcast cfg false gas benv s0 = ([s0], .error e)) ∧
    (∀ r n, (benv s0 0).syncRes = .ok r → r.code ≠ 0 → r.code ≠ 13 →
      getExpectedSequence r.raw_log = some n →
      (signAndBroadcastWith cfg false gas (benv s0)).2
        = .error (.newNumber n (.broadcastFailed r.code r.raw_log))) := by
  refine ⟨?_, ?_, ?_, ?_, ?_, ?_, ?_⟩
  · cases h1 : simulateInner rpc s0 with
    | ok g => simp [simulate, h1]
    | error e =>
      cases e with
      | realError e => simp [simulate, h1]
      | newNumber x e =>
        cases h2 : simulateInner rpc x <;> simp [simulate, h1, h2]
  · intro msg n hrpc hdet
    have h1 : simulateInner rpc s0
        = .error (.newNumber n (.unableToSimulate msg)) := by
      simp [simulateInner, hrpc, hdet]
    constructor
    · cases h2 : simulateInner rpc n <;> simp [simulate, h1, h2]
    · intro e2 h2
      simp [simulate, h1, h2]
  · intro msg hrpc hdet
    have h1 : simulateInner rpc s0
        = .error (.realError (.unableToSimulate msg)) := by
      simp [simulateInner, hrpc, hdet]
    simp [simulate, h1]
  · cases h1 : (signAndBroadcastWith cfg false gas (benv s0)).2 with
    | ok r => simp [innerSignAndBroadcast, h1]
    | error e =>
      cases e with
      | realError e => simp [innerSignAndBroadcast, h1]
      | newNumber x e =>
        cases h2 : (signAndBroadcastWith cfg false gas (benv x)).2 <;>
          simp [innerSignAndBroadcast, h1, h2]
  · intro n e h1
    constructor
    · cases h2 : (signAndBroadcastWith cfg false gas (benv n)).2 <;>
        simp [innerSignAndBroadcast, h1, h2]
    · intro e2 h2
      simp [innerSignAndBroadcast, h1, h2]
  · intro e h1
    simp [innerSignAndBroadcast, h1]
  · intro r n hs h0 h13 hdet
    rw [signAndBroadcastWith,
      sbGo_stop_inner _ _ 0 _ _ (retryWithPrice_seq (benv s0 0) r n hs h0 h13 hdet)]

/-- Witness for C2: the first simulate errors with "expected 7", the redo at
sequence 7 errors with a second mismatch "expected 8", which is fatal: the
sequences tried are exactly 5 then 7, and the result surfaces the second
attempt's underlying error. -/
theorem sequence_mismatch_one_retry_witness :
    (simulate (fun s => if s = 5
        then .error "account sequence mismatch, expected 7, got 5"
        else .error "account sequence mismatch, expected 8, got 7") 5).1
      = [5, 7] ∧
    (simulate (fun s => if s = 5
        then .error "account sequence mismatch, expected 7, got 5"
        else .error "account sequence mismatch, expected 8, got 7") 5).2
      = .error (.unableToSimulate
          "account sequence mismatch, expected 8, got 7") := by
  have h := (sequence_mismatch_one_retry defaultConfig 0
    (fun s => if s = 5
      then .error "account sequence mismatch, expected 7, got 5"
      else .error "account sequence mismatch, expected 8, got 7")
    (fun _ _ => ⟨.error "", .error ""⟩) 5).2.1
    "account sequence mismatch, expected 7, got 5" 7 rfl rfl
  refine ⟨h.1, ?_⟩
  have h2 := h.2 (.newNumber 8
    (.unableToSimulate "account sequence mismatch, expected 8, got 7")) rfl
  simpa [ExpectedSequenceError.toError] using h2

theorem innerSignAndBroadcast_head (cfg : CosmosConfig) (skip_code_check : Bool)
    (gas : Nat) (benv : Nat → Nat → AttemptEnv) (s : Nat) :
    (innerSignAndBroadcast cfg skip_code_check gas benv s).1.head? = some s := by
  cases h1 : (signAndBroadcastWith cfg skip_code_check gas (benv s)).2 with
  | ok r => simp [innerSignAndBroadcast, h1]
  | error e =>
    cases e with
    | realError e => simp [innerSignAndBroadcast, h1]
    | newNumber x e =>
      cases h2 : (signAndBroadcastWith cfg skip_code_check gas (benv x)).2 <;>
        simp [innerSignAndBroadcast, h1, h2]

/-- C5 counterexample: simulate's first attempt (at the fetched sequence 4)
errors with "account sequence mismatch, expected 9, got 4" and the second
simulate attempt at 9 succeeds, yet the subsequent broadcast uses the
re-fetched sequence 4 — its sequence trace is `[4]`, which does not contain
the node-corrected 9 the claim says it uses. -/
theorem signAndBroadcast_counterexample :
    signAndBroadcast defaultConfig false
        ⟨4,
          (fun s => if s = 9 then .ok (some 1000)
            else .error "account sequence mismatch, expected 9, got 4"),
          4,
          (fun _ _ => ⟨.ok ⟨0, "", "H"⟩, .ok ⟨0, "", "H"⟩⟩)⟩
      = ([4, 9], [4], .ok ⟨0, "", "H"⟩) ∧
    (9 : Nat) ∉ ([4] : List Nat) := by
  exact ⟨rfl, by decide⟩

/-- C5 (amended): when the first simulate attempt at the fetched sequence
errors with text the detector reads as "expected 9" and the second simulate
attempt at 9 succeeds, simulate returns successfully using sequence 9 (its
sequence trace is [fetched, 9]); the subsequent broadcast re-fetches the
account and makes its first attempt with that freshly fetched sequence — the
sequence corrected during simulation is not propagated to the broadcast stage,
which instead applies its own one-shot correction on a further mismatch. -/
theorem signAndBroadcast_spec (cfg : CosmosConfig) (E : SignAndBroadcastEnv)
    (msg : String) (g : Nat)
    (h1 : E.simRpc E.simFetchedSequence = .error msg)
    (h9 : getExpectedSequence msg = some 9)
    (h2 : E.simRpc 9 = .ok (some g)) :
    (signAndBroadcast cfg false E).1 = [E.simFetchedSequence, 9] ∧
    (signAndBroadcast cfg false E).2.1.head? = some E.broadcastFetchedSequence := by
  have hsim1 : simulateInner E.simRpc E.simFetchedSequence
      = .error (.newNumber 9 (.unableToSimulate msg)) := by
    simp [simulateInner, h1, h9]
  have hsim2 : simulateInner E.simRpc 9 = .ok g := by
    simp [simulateInner, h2]
  have hsim : simulate E.simRpc E.simFetchedSequence
      = ([E.simFetchedSequence, 9], .ok g) := by
    simp [simulate, hsim1, hsim2]
  constructor
  · simp [signAndBroadcast, hsim]
  · simp [signAndBroadcast, hsim, innerSignAndBroadcast_head]

/-- Witness for C5 (amended), at the counterexample's environment: simulate's
trace is [4, 9] and the broadcast's first attempt uses the re-fetched 4. -/
theorem signAndBroadcast_spec_witness :
    (signAndBroadcast defaultConfig false
        ⟨4,
          (fun s => if s = 9 then .ok (some 1000)
            else .error "account sequence mismatch, expected 9, got 4"),
          4,
          (fun _ _ => ⟨.ok ⟨0, "", "H"⟩, .ok ⟨0, "", "H"⟩⟩)⟩).1 = [4, 9] ∧
    (signAndBroadcast defaultConfig false
        ⟨4,
          (fun s => if s = 9 then .ok (some 1000)
            else .error "account sequence mismatch, expected 9, got 4"),
          4,
          (fun _ _ => ⟨.ok ⟨0, "", "H"⟩, .ok ⟨0, "", "H"⟩⟩)⟩).2.1.head?
      = some 4 := by
  exact signAndBroadcast_spec defaultConfig
    ⟨4,
      (fun s => if s = 9 then .ok (some 1000)
        else .error "account sequence mismatch, expected 9, got 4"),
      4,
      (fun _ _ => ⟨.ok ⟨0, "", "H"⟩, .ok ⟨0, "", "H"⟩⟩)⟩
    "account sequence mismatch, expected 9, got 4" 1000 rfl rfl rfl

end Cosmos
